import Mathlib

set_option maxRecDepth 4000

namespace MidiToTab

/-! Shallow embedding of the tab-generation core of src/tabs.py (class Tabs and its
static tables).  Python dictionaries with string keys are embedded as match-based
lookup functions; the per-pitch inner dictionaries (string 1..6 to fret-or-empty)
become lists of pairs in their insertion order, with the empty string value
embedded as `none`.  The mutable `notes_cache` field of the Tabs object is
threaded explicitly as an association list in which the most recent write
shadows older entries, exactly like a Python dict update. -/

/-- A fretboard position as the Python code passes it around: (fret, string). -/
abbrev Pos := Nat × Nat

/-- The notes_cache dictionary of the Tabs object: pitch name to position. -/
abbrev Cache := List (String × Pos)

/-- The scale-walk list built by find_start: (fret, string) pairs; frets are
Python ints, hence Int. -/
abbrev ScaleNotes := List (Int × Nat)

/-- Python `abs(note_fret - fret)` on ints, both arguments here being Nats. -/
def diffN (fret f : Nat) : Nat := ((f : Int) - (fret : Int)).natAbs

/-- Lookup in the notes_cache dict (`self.notes_cache.get(note)`).  The head of
the association list is the most recent write, as in a dict update. -/
def cacheGet (c : Cache) (n : String) : Option Pos :=
  match c with
  | [] => none
  | (k, v) :: rest => if k = n then some v else cacheGet rest n

/-- The NOTE_TO_STRING dictionary of src/tabs.py (lines 355-431), embedded as
`NOTE_TO_STRING.get`: pitch name to the list of (string, fret-or-empty) items in
insertion order 1..6.  The Python source writes the keys F2 and B1 twice; a
Python dict literal keeps the LAST value for a duplicated key, so F2 (line 420)
and B1 (line 429) are both entirely empty here, overriding their earlier rows. -/
def NOTE_TO_STRING_get : String → Option (List (Nat × Option Nat))
  | "F4" => some [(1, some 1), (2, some 6), (3, some 10), (4, some 15), (5, some 20), (6, none)]
  | "F#4" => some [(1, some 2), (2, some 7), (3, some 11), (4, some 16), (5, some 21), (6, none)]
  | "G4" => some [(1, some 3), (2, some 8), (3, some 12), (4, some 17), (5, some 22), (6, none)]
  | "Ab4" => some [(1, some 4), (2, some 9), (3, some 13), (4, some 18), (5, none), (6, none)]
  | "G#4" => some [(1, some 4), (2, some 9), (3, some 13), (4, some 18), (5, none), (6, none)]
  | "A4" => some [(1, some 5), (2, some 10), (3, some 14), (4, some 19), (5, none), (6, none)]
  | "Bb4" => some [(1, some 6), (2, some 11), (3, some 15), (4, some 20), (5, none), (6, none)]
  | "A#4" => some [(1, some 6), (2, some 11), (3, some 15), (4, some 20), (5, none), (6, none)]
  | "B4" => some [(1, some 7), (2, some 12), (3, some 16), (4, some 21), (5, none), (6, none)]
  | "C5" => some [(1, some 8), (2, some 13), (3, some 17), (4, some 22), (5, none), (6, none)]
  | "C#5" => some [(1, some 9), (2, some 14), (3, some 18), (4, none), (5, none), (6, none)]
  | "D5" => some [(1, some 10), (2, some 15), (3, some 19), (4, none), (5, none), (6, none)]
  | "Eb5" => some [(1, some 11), (2, some 16), (3, some 20), (4, none), (5, none), (6, none)]
  | "D#5" => some [(1, some 11), (2, some 16), (3, some 20), (4, none), (5, none), (6, none)]
  | "E5" => some [(1, some 12), (2, some 17), (3, some 21), (4, none), (5, none), (6, none)]
  | "F5" => some [(1, some 13), (2, some 18), (3, some 22), (4, none), (5, none), (6, none)]
  | "F#5" => some [(1, some 14), (2, some 19), (3, none), (4, none), (5, none), (6, none)]
  | "G5" => some [(1, some 15), (2, some 20), (3, none), (4, none), (5, none), (6, none)]
  | "Ab5" => some [(1, some 16), (2, some 21), (3, none), (4, none), (5, none), (6, none)]
  | "G#5" => some [(1, some 16), (2, some 21), (3, none), (4, none), (5, none), (6, none)]
  | "A5" => some [(1, some 17), (2, some 22), (3, none), (4, none), (5, none), (6, none)]
  | "Bb5" => some [(1, some 18), (2, none), (3, none), (4, none), (5, none), (6, none)]
  | "A#5" => some [(1, some 18), (2, none), (3, none), (4, none), (5, none), (6, none)]
  | "B5" => some [(1, some 19), (2, none), (3, none), (4, none), (5, none), (6, none)]
  | "C6" => some [(1, some 20), (2, none), (3, none), (4, none), (5, none), (6, none)]
  | "C#6" => some [(1, some 21), (2, none), (3, none), (4, none), (5, none), (6, none)]
  | "D6" => some [(1, some 22), (2, none), (3, none), (4, none), (5, none), (6, none)]
  | "C4" => some [(1, none), (2, some 1), (3, some 5), (4, some 10), (5, some 15), (6, some 20)]
  | "C#4" => some [(1, none), (2, some 2), (3, some 6), (4, some 11), (5, some 16), (6, some 21)]
  | "D4" => some [(1, none), (2, some 3), (3, some 7), (4, some 12), (5, some 17), (6, some 22)]
  | "Eb4" => some [(1, none), (2, some 4), (3, some 8), (4, some 13), (5, some 18), (6, none)]
  | "D#4" => some [(1, none), (2, some 4), (3, some 8), (4, some 13), (5, some 18), (6, none)]
  | "E4" => some [(1, none), (2, some 5), (3, some 9), (4, some 14), (5, some 19), (6, none)]
  | "Ab3" => some [(1, none), (2, none), (3, some 1), (4, some 6), (5, some 11), (6, some 16)]
  | "G#3" => some [(1, none), (2, none), (3, some 1), (4, some 6), (5, some 11), (6, some 16)]
  | "A3" => some [(1, none), (2, none), (3, some 2), (4, some 7), (5, some 12), (6, some 17)]
  | "Bb3" => some [(1, none), (2, none), (3, some 3), (4, some 8), (5, some 13), (6, some 18)]
  | "A#3" => some [(1, none), (2, none), (3, some 3), (4, some 8), (5, some 13), (6, some 18)]
  | "B3" => some [(1, none), (2, none), (3, some 4), (4, some 9), (5, some 14), (6, some 19)]
  | "Eb3" => some [(1, none), (2, none), (3, none), (4, some 1), (5, some 6), (6, some 11)]
  | "D#3" => some [(1, none), (2, none), (3, none), (4, some 1), (5, some 6), (6, some 11)]
  | "E3" => some [(1, none), (2, none), (3, none), (4, some 2), (5, some 7), (6, some 12)]
  | "F3" => some [(1, none), (2, none), (3, none), (4, some 3), (5, some 8), (6, some 13)]
  | "F#3" => some [(1, none), (2, none), (3, none), (4, some 4), (5, some 9), (6, some 14)]
  | "G3" => some [(1, none), (2, none), (3, none), (4, some 5), (5, some 10), (6, some 15)]
  | "Bb2" => some [(1, none), (2, none), (3, none), (4, none), (5, some 1), (6, some 6)]
  | "A#2" => some [(1, none), (2, none), (3, none), (4, none), (5, some 1), (6, some 6)]
  | "B2" => some [(1, none), (2, none), (3, none), (4, none), (5, some 2), (6, some 7)]
  | "C3" => some [(1, none), (2, none), (3, none), (4, none), (5, some 3), (6, some 8)]
  | "C#3" => some [(1, none), (2, none), (3, none), (4, none), (5, some 4), (6, some 9)]
  | "D3" => some [(1, none), (2, none), (3, none), (4, none), (5, some 5), (6, some 10)]
  | "F2" => some [(1, none), (2, none), (3, none), (4, none), (5, none), (6, none)]
  | "F#2" => some [(1, none), (2, none), (3, none), (4, none), (5, none), (6, some 2)]
  | "G2" => some [(1, none), (2, none), (3, none), (4, none), (5, none), (6, some 3)]
  | "Ab2" => some [(1, none), (2, none), (3, none), (4, none), (5, none), (6, some 4)]
  | "G#2" => some [(1, none), (2, none), (3, none), (4, none), (5, none), (6, some 4)]
  | "A2" => some [(1, none), (2, none), (3, none), (4, none), (5, none), (6, some 5)]
  | "B1" => some [(1, none), (2, none), (3, none), (4, none), (5, none), (6, none)]
  | "C#2" => some [(1, none), (2, none), (3, none), (4, none), (5, none), (6, none)]
  | "Db2" => some [(1, none), (2, none), (3, none), (4, none), (5, none), (6, none)]
  | "D2" => some [(1, none), (2, none), (3, none), (4, none), (5, none), (6, none)]
  | "D#2" => some [(1, none), (2, none), (3, none), (4, none), (5, none), (6, none)]
  | "Eb2" => some [(1, none), (2, none), (3, none), (4, none), (5, none), (6, none)]
  | "E2" => some [(1, none), (2, none), (3, none), (4, none), (5, none), (6, none)]
  | "F#1" => some [(1, none), (2, none), (3, none), (4, none), (5, none), (6, none)]
  | "Gb1" => some [(1, none), (2, none), (3, none), (4, none), (5, none), (6, none)]
  | "G1" => some [(1, none), (2, none), (3, none), (4, none), (5, none), (6, none)]
  | "G#1" => some [(1, none), (2, none), (3, none), (4, none), (5, none), (6, none)]
  | "Ab1" => some [(1, none), (2, none), (3, none), (4, none), (5, none), (6, none)]
  | "A1" => some [(1, none), (2, none), (3, none), (4, none), (5, none), (6, none)]
  | "A#1" => some [(1, none), (2, none), (3, none), (4, none), (5, none), (6, none)]
  | "Bb1" => some [(1, none), (2, none), (3, none), (4, none), (5, none), (6, none)]
  | "F7" => some [(1, some 14), (2, some 19), (3, none), (4, none), (5, none), (6, none)]
  | _ => none

/-- The SCALE dictionary of src/tabs.py (lines 445-456), as `SCALE.get`. -/
def SCALE_get : String → Option (List Nat)
  | "major" => some [2, 2, 1, 2, 2, 2, 1]
  | "ionian" => some [2, 2, 1, 2, 2, 2, 1]
  | "dorian" => some [2, 1, 2, 2, 2, 1, 2]
  | "phrygian" => some [1, 2, 2, 2, 1, 2, 2]
  | "lydian" => some [2, 2, 2, 1, 2, 2, 1]
  | "mixolydian" => some [2, 2, 1, 2, 2, 1, 2]
  | "locrian" => some [1, 2, 2, 1, 2, 2, 2]
  | "minor" => some [2, 1, 2, 2, 1, 2, 2]
  | "aeolian" => some [2, 1, 2, 2, 1, 2, 2]
  | "jazz_minor" => some [2, 1, 2, 2, 2, 2, 1]
  | _ => none

/-- The reachable (string, fret) pairs of a per-pitch item list, in scan order:
the items whose fret entry is non-empty. -/
def reachList (items : List (Nat × Option Nat)) : List (Nat × Nat) :=
  items.filterMap (fun it => it.2.map (fun f => (it.1, f)))

/-- The first (in ascending string order) reachable (fret, string) pair of the
item list that is a member of the scale-walk list, if any. -/
def firstScaleMatch (s : ScaleNotes) : List (Nat × Option Nat) → Option Pos
  | [] => none
  | (_, none) :: rest => firstScaleMatch s rest
  | (st, some f) :: rest =>
    if ((f : Int), st) ∈ s then some (f, st) else firstScaleMatch s rest

/-- The accumulator loop of note_nearest_to_fret in isolation: the running
(min_diff, min_fret, min_string) triple updated by `if diff <= min_diff` over
the reachable items, returning the final (min_fret, min_string). -/
def minScan (fret : Nat) : List (Nat × Option Nat) → Nat × Nat × Nat → Pos
  | [], acc => (acc.2.1, acc.2.2)
  | (_, none) :: rest, acc => minScan fret rest acc
  | (st, some f) :: rest, acc =>
    if diffN fret f ≤ acc.1 then minScan fret rest (diffN fret f, f, st)
    else minScan fret rest acc

/-- Outcome of the per-string for-loop of note_nearest_to_fret: `early` is a
return from inside the loop (scale-walk hit or cache hit, no cache write);
`fin` is falling off the end of the loop (followed by the cache write). -/
inductive ScanR where
  | early : Pos → ScanR
  | fin : Pos → ScanR

/-- The for-loop of note_nearest_to_fret (src/tabs.py lines 42-57): for each
(string, fret) item in order, skip empty frets, return a scale-walk member
immediately, return the cached position if the pitch is cached, otherwise
accumulate the minimum |fret - currentFret| with ties replaced by the later
item (`diff <= min_diff`). -/
def scanLoop (c : Cache) (n : String) (s : ScaleNotes) (fret : Nat) :
    List (Nat × Option Nat) → Nat × Nat × Nat → ScanR
  | [], acc => .fin (acc.2.1, acc.2.2)
  | (_, none) :: rest, acc => scanLoop c n s fret rest acc
  | (st, some f) :: rest, acc =>
    if ((f : Int), st) ∈ s then .early (f, st)
    else
      match cacheGet c n with
      | some p => .early p
      | none =>
        if diffN fret f ≤ acc.1 then scanLoop c n s fret rest (diffN fret f, f, st)
        else scanLoop c n s fret rest acc

/-- note_nearest_to_fret (src/tabs.py lines 36-61).  Returns the chosen
(fret, string) pair (or `none` mirroring the Python `(None, None)` when the
pitch is absent from NOTE_TO_STRING) together with the notes_cache dict after
the call: an early return leaves the cache untouched, falling through the loop
writes `notes_cache[note] = (min_fret, min_string)`, the accumulator starting
from the sentinel (999, 999, 999). -/
def note_nearest_to_fret (c : Cache) (fret : Nat) (note : String) (s : ScaleNotes) :
    Option Pos × Cache :=
  match NOTE_TO_STRING_get note with
  | none => (none, c)
  | some items =>
    match scanLoop c note s fret items (999, 999, 999) with
    | .early p => (some p, c)
    | .fin p => (some p, (note, p) :: c)

/-- The per-note loop of generate_notes (src/tabs.py lines 26-32): a note whose
pitch is absent from NOTE_TO_STRING is skipped with no state change (and
note_nearest_to_fret returns `none` exactly in that case); otherwise the chosen
(note_fret, note_string) is emitted as the triple (note, note_string, note_fret)
and the running fret becomes note_fret.  Returns (to_play, cache, fret). -/
def genLoop (s : ScaleNotes) : Cache → Nat → List String → List (String × Nat × Nat) × Cache × Nat
  | c, f, [] => ([], c, f)
  | c, f, n :: ns =>
    match note_nearest_to_fret c f n s with
    | (none, _) => genLoop s c f ns
    | (some p, c2) =>
      ((n, p.2, p.1) :: (genLoop s c2 p.1 ns).1, (genLoop s c2 p.1 ns).2)

/-- _fix_note_name (src/tabs.py lines 155-165) on a name that is already a
string: the flat sign of music21 (the minus character) is replaced by the
letter b (the Python str.replace with a one-character pattern, embedded
character-wise), and if the final character is not a digit the implicit octave
of the pitch is appended.  Modelled from the spec: the implicit octave of a
music21 pitch without an explicit octave is 4 (music21 is external to the
repository; inputs with an explicit octave never reach that branch). -/
def fix_note_name (name : String) : String :=
  let replaced := String.mk (name.toList.map (fun ch => if ch = '-' then 'b' else ch))
  match replaced.toList.getLast? with
  | some ch => if ch.isDigit then replaced else replaced ++ "4"
  | none => replaced ++ "4"

/-- Modelled from the spec: the Scale Generator (_get_scale delegates to the
external music21 scale classes) returns "the ordered sequence of pitch names
forming that scale starting at the tonic, using the tonic octave"; find_start
consumes only the first pitch of that sequence, which is the tonic itself (for
unknown modes the generator falls back to the major scale, whose first pitch
is likewise the tonic). -/
def scaleFirstPitch (tonic : String) (_mode : String) : String := tonic

/-- One candidate walk of find_start (the while-loop, src/tabs.py lines 87-104)
for a candidate starting at fret fret0: the running state is (fret, string,
step index, num_notes, span, note_list); each iteration advances the fret by
the next scale step (cycling), appends (fret, string) to the note list, drops
a string (fret minus 4 on string 2, else minus 5) when the fret exceeds the
starting fret by more than 3, and decrements span; the loop stops when span
reaches 0 or the string index reaches 0.  Returns the final (num_notes,
note_list). -/
def walk (steps : List Nat) (fret0 : Int) :
    Int → Nat → Nat → Nat → Nat → ScaleNotes → Nat × ScaleNotes
  | _, _, _, num, 0, acc => (num, acc)
  | fret, string, stepIdx, num, span + 1, acc =>
    if string = 0 then (num, acc)
    else
      let f := fret + (steps.getD stepIdx 0 : Int)
      let si := if stepIdx + 1 ≥ steps.length then 0 else stepIdx + 1
      let acc2 := acc ++ [(f, string)]
      if f > fret0 + 3 then
        walk steps fret0 (f - (if string = 2 then 4 else 5)) (string - 1) si (num + 1) span acc2
      else
        walk steps fret0 f string si (num + 1) span acc2

/-- The accumulator of the candidate loop of find_start: running best
(max_count, start_fret, start_string, start_scale_notes). -/
structure StartAcc where
  maxCount : Nat
  startFret : Nat
  startString : Nat
  scaleNotes : ScaleNotes

/-- The candidate loop of find_start (src/tabs.py lines 79-104): each reachable
item of the first-pitch row starts a walk with span 8; a candidate whose walk
visits more notes than the running maximum becomes the new best, recording its
starting fret and string.  The Python update inside the while-loop aliases the
growing note_list, so the recorded start_scale_notes of the winning candidate
is its FULL final note list (num_notes increases by one per iteration, hence a
candidate updates the maximum at some point of its walk exactly when its final
count exceeds the incoming maximum); an item with an empty fret never enters
the while-loop (its guard `note_fret` is falsy, likewise a zero fret would be).
Candidates are scanned in ascending string order, so ties keep the first. -/
def walkAll (steps : List Nat) (items : List (Nat × Option Nat)) : Nat × Nat × ScaleNotes :=
  let acc := items.foldl
    (fun (a : StartAcc) it =>
      match it.2 with
      | none => a
      | some nf =>
        if nf = 0 then a
        else
          let w := walk steps (nf : Int) (nf : Int) it.1 0 0 8 [((nf : Int), it.1)]
          if w.1 > a.maxCount then ⟨w.1, nf, it.1, w.2⟩ else a)
    ⟨0, 0, 0, []⟩
  (acc.startFret, acc.startString, acc.scaleNotes)

/-- find_start (src/tabs.py lines 63-106).  `SCALE[scale_type]` and
`NOTE_TO_STRING[...]` are Python bracket lookups, so a missing key raises an
uncaught KeyError, embedded as `Except.error ()`; the function body never
raises otherwise and returns (start_fret, start_string, start_scale_notes),
which is (0, 0, []) when no candidate walk ever ran. -/
def find_start (key : String × String) : Except Unit (Nat × Nat × ScaleNotes) :=
  match SCALE_get key.2 with
  | none => .error ()
  | some steps =>
    match NOTE_TO_STRING_get (fix_note_name (scaleFirstPitch key.1 key.2)) with
    | none => .error ()
    | some items => .ok (walkAll steps items)

/-- generate_notes (src/tabs.py lines 15-34): find_start supplies the starting
fret and the scale-walk list, then each performed note is assigned in order.
The notes_cache field of the Tabs object is passed in and returned explicitly
(a fresh Tabs object has an empty cache; a second call on the same object
starts from the cache left by the first). -/
def generate_notes (notes : List String) (key : String × String) (cache : Cache) :
    Except Unit (List (String × Nat × Nat) × Cache) :=
  match find_start key with
  | .error e => .error e
  | .ok r => .ok ((genLoop r.2.2 cache r.1 notes).1, (genLoop r.2.2 cache r.1 notes).2.1)

/-- _get_scale (src/tabs.py lines 167-183), with the external music21 scale
classes identified by their mode name: the if/elif chain maps major and ionian
to the major scale, minor and aeolian to the minor scale, dorian, phrygian,
lydian and locrian to their own scales, and EVERYTHING else (including
mixolydian and jazz_minor, which have no branch) to the major scale. -/
def get_scale_mode (scale_type : String) : String :=
  if scale_type = "major" ∨ scale_type = "ionian" then "major"
  else if scale_type = "minor" ∨ scale_type = "aeolian" then "minor"
  else if scale_type = "dorian" then "dorian"
  else if scale_type = "phrygian" then "phrygian"
  else if scale_type = "lydian" then "lydian"
  else if scale_type = "locrian" then "locrian"
  else "major"

/-- Modelled from the spec: the fixed interval-step tables of the scales built
by the external music21 scale classes that _get_scale can return (7 steps
summing to 12, as the ScaleStep table of the spec prescribes). -/
def music21_steps : String → List Nat
  | "major" => [2, 2, 1, 2, 2, 2, 1]
  | "minor" => [2, 1, 2, 2, 1, 2, 2]
  | "dorian" => [2, 1, 2, 2, 2, 1, 2]
  | "phrygian" => [1, 2, 2, 2, 1, 2, 2]
  | "lydian" => [2, 2, 2, 1, 2, 2, 1]
  | "locrian" => [1, 2, 2, 1, 2, 2, 2]
  | _ => []

/-- The GUITAR_STAFF labels of src/tabs.py line 188 (index 0..5). -/
def GUITAR_STAFF : List String := ["E", "A", "D", "G", "B", "E"]

/-- Padding a track on the right with the TAB_LINE_CHAR dash up to length n
(`string + TAB_LINE_CHAR * diff`; no-op when already at least that long). -/
def padTo (s : List Char) (n : Nat) : List Char := s ++ List.replicate (n - s.length) '-'

/-- One iteration of the note loop of render (src/tabs.py lines 113-122):
the inner for-loop pads the target track up to the length of every longer
track, i.e. up to the maximum track length, then a dash, the decimal digits of
the fret and a dash are appended to the target track.  The target index is
`int(note_string) - 1`; strings are in 1..6 here (the well-formed inputs of
the renderer contract), so the index is in range. -/
def renderNoteStep (fb : List (List Char)) (st fr : Nat) : List (List Char) :=
  let idx := st - 1
  let maxLen := (fb.map List.length).foldl max 0
  fb.set idx (padTo (fb.getD idx []) maxLen ++ ('-' :: (Nat.repr fr).toList ++ ['-']))

/-- The Python slice s[a:b] on a list of characters (clamping, total). -/
def pySlice (s : List Char) (a b : Nat) : List Char := (s.drop a).take (b - a)

/-- The break-point search of render (src/tabs.py lines 130-135): starting at
staff_length, for each of the six tracks, `string[break_point]` is read -- an
uncaught IndexError (embedded as `Except.error ()`) when break_point is not
below the track length -- and break_point is incremented when that character
is not a dash. -/
def breakScan : List (List Char) → Nat → Except Unit Nat
  | [], bp => .ok bp
  | s :: rest, bp =>
    match s.get? bp with
    | none => .error ()
    | some ch => if ch ≠ '-' then breakScan rest (bp + 1) else breakScan rest bp

/-- The emission while-loop of render (src/tabs.py lines 137-151), with an
explicit fuel bound standing for the unbounded `while True` (the loop, when it
runs at all, advances `start` by the fixed positive break_point each pass, so
the fuel chosen by `render` is never exhausted on inputs where the loop
terminates; exhaustion, like Python divergence, yields an error).  Each pass
first tests `not fretboard[string_idx][start:] and start > staff_length`, then
emits the six label-prefixed slices [start:end] and one blank line, cycles
string_idx, and slides the window by break_point. -/
def emitLoop (fb : List (List Char)) (staff_length bp : Nat) :
    Nat → Nat → Nat → Nat → List String → Except Unit (List String)
  | 0, _, _, _, _ => .error ()
  | fuel + 1, si, start, en, acc =>
    if (fb.getD si []).drop start = [] ∧ start > staff_length then .ok acc
    else
      emitLoop fb staff_length bp fuel ((si + 1) % 6) en (en + bp)
        (acc ++ (GUITAR_STAFF.zip fb).map
            (fun lb => lb.1 ++ String.mk (pySlice lb.2 start en)) ++ [""])

/-- render (src/tabs.py lines 108-153) on a triple list and a staff_length
(the `staff_length` kwarg; MAX_RENDER_COLUMNS = 70 is its default at the call
sites).  Six initially-empty tracks are grown by the note loop, padded on the
right to a common maximum length, then the break-point scan runs (where the
Python code can raise IndexError) and the emission loop produces the lines. -/
def render (notes_list : List (String × Nat × Nat)) (staff_length : Nat) :
    Except Unit (List String) :=
  let fb1 := notes_list.foldl (fun fb t => renderNoteStep fb t.2.1 t.2.2)
    (List.replicate 6 ([] : List Char))
  let maxLen := (fb1.map List.length).foldl max 0
  let fb2 := fb1.map (fun s => padTo s maxLen)
  match breakScan fb2 staff_length with
  | .error e => .error e
  | .ok bp => emitLoop fb2 staff_length bp (maxLen + staff_length + 16) 0 0 bp []

/-! Proof layer: characterizations of the scan loop of note_nearest_to_fret and
a run invariant for genLoop.  These are auxiliary definitions and lemmas, not
embeddings of source code. -/

theorem reachList_cons_none (st : Nat) (rest : List (Nat × Option Nat)) :
    reachList ((st, none) :: rest) = reachList rest := by
  simp [reachList]

theorem reachList_cons_some (st f : Nat) (rest : List (Nat × Option Nat)) :
    reachList ((st, some f) :: rest) = (st, f) :: reachList rest := by
  simp [reachList]

theorem cacheGet_cons (k : String) (v : Pos) (c : Cache) (m : String) :
    cacheGet ((k, v) :: c) m = if k = m then some v else cacheGet c m := rfl

/-- A scan over items with no reachable entry falls through the whole loop with
the accumulator untouched, whatever the cache holds. -/
theorem scanLoop_no_reach (c : Cache) (n : String) (s : ScaleNotes) (fret : Nat) :
    ∀ (items : List (Nat × Option Nat)) (acc : Nat × Nat × Nat),
      reachList items = [] →
      scanLoop c n s fret items acc = ScanR.fin (acc.2.1, acc.2.2) := by
  intro items
  induction items with
  | nil => intro acc _; rfl
  | cons it rest ih =>
    intro acc hre
    obtain ⟨st, fo⟩ := it
    cases fo with
    | none =>
      rw [reachList_cons_none] at hre
      exact ih acc hre
    | some f =>
      rw [reachList_cons_some] at hre
      cases hre

/-- When the pitch is not in the cache, the scan returns the first scale-walk
match if one exists, and otherwise falls through with the minimum-diff
accumulation. -/
theorem scanLoop_no_cache (c : Cache) (n : String) (s : ScaleNotes) (fret : Nat)
    (hc : cacheGet c n = none) :
    ∀ (items : List (Nat × Option Nat)) (acc : Nat × Nat × Nat),
      scanLoop c n s fret items acc =
        (match firstScaleMatch s items with
         | some p => ScanR.early p
         | none => ScanR.fin (minScan fret items acc)) := by
  intro items
  induction items with
  | nil => intro acc; rfl
  | cons it rest ih =>
    intro acc
    obtain ⟨st, fo⟩ := it
    cases fo with
    | none =>
      simp only [scanLoop, firstScaleMatch, minScan]
      exact ih acc
    | some f =>
      by_cases hmem : ((f : Int), st) ∈ s
      · simp [scanLoop, firstScaleMatch, hmem]
      · by_cases hd : diffN fret f ≤ acc.1
        · simp only [scanLoop, firstScaleMatch, minScan, if_neg hmem, hc, if_pos hd]
          exact ih _
        · simp only [scanLoop, firstScaleMatch, minScan, if_neg hmem, hc, if_neg hd]
          exact ih _

/-- When the pitch is cached and no reachable position lies on the scale walk,
the scan returns the cached position at the first reachable item (or falls
through untouched when nothing is reachable). -/
theorem scanLoop_cached (c : Cache) (n : String) (s : ScaleNotes) (fret : Nat) (p : Pos)
    (hc : cacheGet c n = some p) :
    ∀ (items : List (Nat × Option Nat)) (acc : Nat × Nat × Nat),
      firstScaleMatch s items = none →
      scanLoop c n s fret items acc =
        (if reachList items = [] then ScanR.fin (acc.2.1, acc.2.2) else ScanR.early p) := by
  intro items
  induction items with
  | nil => intro acc _; simp [scanLoop, reachList]
  | cons it rest ih =>
    intro acc hfsm
    obtain ⟨st, fo⟩ := it
    cases fo with
    | none =>
      rw [reachList_cons_none]
      simp only [scanLoop]
      exact ih acc (by simpa [firstScaleMatch] using hfsm)
    | some f =>
      have hmem : ¬ ((f : Int), st) ∈ s := by
        intro h; simp [firstScaleMatch, h] at hfsm
      simp [scanLoop, hmem, hc, reachList_cons_some]

/-- A reachable position on the scale walk forces a first scale match. -/
theorem firstScaleMatch_isSome (s : ScaleNotes) :
    ∀ (items : List (Nat × Option Nat)),
      (∃ p ∈ reachList items, ((p.2 : Int), p.1) ∈ s) →
      ∃ q, firstScaleMatch s items = some q := by
  intro items
  induction items with
  | nil => rintro ⟨p, hp, _⟩; simp [reachList] at hp
  | cons it rest ih =>
    rintro ⟨p, hp, hps⟩
    obtain ⟨st, fo⟩ := it
    cases fo with
    | none =>
      rw [reachList_cons_none] at hp
      simpa [firstScaleMatch] using ih ⟨p, hp, hps⟩
    | some f =>
      by_cases hmem : ((f : Int), st) ∈ s
      · exact ⟨(f, st), by simp [firstScaleMatch, hmem]⟩
      · rw [reachList_cons_some] at hp
        rcases List.mem_cons.mp hp with rfl | hp2
        · exact absurd hps hmem
        · simpa [firstScaleMatch, hmem] using ih ⟨p, hp2, hps⟩

/-- The first scale match is a member of the scale walk and is reachable. -/
theorem firstScaleMatch_mem (s : ScaleNotes) :
    ∀ (items : List (Nat × Option Nat)) (q : Pos), firstScaleMatch s items = some q →
      ((q.1 : Int), q.2) ∈ s ∧ (q.2, q.1) ∈ reachList items := by
  intro items
  induction items with
  | nil => intro q h; cases h
  | cons it rest ih =>
    intro q h
    obtain ⟨st, fo⟩ := it
    cases fo with
    | none =>
      rw [reachList_cons_none]
      exact ih q (by simpa [firstScaleMatch] using h)
    | some f =>
      by_cases hmem : ((f : Int), st) ∈ s
      · rw [reachList_cons_some]
        have hq : (f, st) = q := by simpa [firstScaleMatch, hmem] using h
        subst hq
        exact ⟨hmem, List.mem_cons_self _ _⟩
      · rw [reachList_cons_some]
        have h2 := ih q (by simpa [firstScaleMatch, hmem] using h)
        exact ⟨h2.1, List.mem_cons_of_mem _ h2.2⟩

theorem nnf_absent (c : Cache) (f : Nat) (n : String) (s : ScaleNotes)
    (hget : NOTE_TO_STRING_get n = none) :
    note_nearest_to_fret c f n s = (none, c) := by
  simp [note_nearest_to_fret, hget]

theorem nnf_scale_hit (c : Cache) (f : Nat) (n : String) (s : ScaleNotes)
    (items : List (Nat × Option Nat)) (p : Pos)
    (hget : NOTE_TO_STRING_get n = some items)
    (hfsm : firstScaleMatch s items = some p)
    (hc : cacheGet c n = none) :
    note_nearest_to_fret c f n s = (some p, c) := by
  have h := scanLoop_no_cache c n s f hc items (999, 999, 999)
  rw [hfsm] at h
  simp [note_nearest_to_fret, hget, h]

theorem nnf_prox (c : Cache) (f : Nat) (n : String) (s : ScaleNotes)
    (items : List (Nat × Option Nat))
    (hget : NOTE_TO_STRING_get n = some items)
    (hfsm : firstScaleMatch s items = none)
    (hc : cacheGet c n = none) :
    note_nearest_to_fret c f n s =
      (some (minScan f items (999, 999, 999)), (n, minScan f items (999, 999, 999)) :: c) := by
  have h := scanLoop_no_cache c n s f hc items (999, 999, 999)
  rw [hfsm] at h
  simp [note_nearest_to_fret, hget, h]

theorem nnf_cache_hit (c : Cache) (f : Nat) (n : String) (s : ScaleNotes)
    (items : List (Nat × Option Nat)) (p : Pos)
    (hget : NOTE_TO_STRING_get n = some items)
    (hfsm : firstScaleMatch s items = none)
    (hre : reachList items ≠ [])
    (hc : cacheGet c n = some p) :
    note_nearest_to_fret c f n s = (some p, c) := by
  have h := scanLoop_cached c n s f p hc items (999, 999, 999) hfsm
  rw [if_neg hre] at h
  simp [note_nearest_to_fret, hget, h]

theorem nnf_sentinel (c : Cache) (f : Nat) (n : String) (s : ScaleNotes)
    (items : List (Nat × Option Nat))
    (hget : NOTE_TO_STRING_get n = some items)
    (hre : reachList items = []) :
    note_nearest_to_fret c f n s = (some (999, 999), (n, (999, 999)) :: c) := by
  have h := scanLoop_no_reach c n s f items (999, 999, 999) hre
  simp [note_nearest_to_fret, hget, h]

theorem genLoop_cons_skip (s : ScaleNotes) (c : Cache) (f : Nat) (n : String)
    (ns : List String) (c2 : Cache)
    (h : note_nearest_to_fret c f n s = (none, c2)) :
    genLoop s c f (n :: ns) = genLoop s c f ns := by
  simp [genLoop, h]

theorem genLoop_cons_emit (s : ScaleNotes) (c : Cache) (f : Nat) (n : String)
    (ns : List String) (p : Pos) (c2 : Cache)
    (h : note_nearest_to_fret c f n s = (some p, c2)) :
    genLoop s c f (n :: ns) =
      ((n, p.2, p.1) :: (genLoop s c2 p.1 ns).1, (genLoop s c2 p.1 ns).2) := by
  simp [genLoop, h]

/-- Invariant of the notes_cache dict relative to a fixed scale-walk list: every
entry belongs to a pitch of the map with no reachable position on the scale
walk, and an entry for a fully-unreachable pitch holds the sentinel. -/
def CacheGood (s : ScaleNotes) (c : Cache) : Prop :=
  ∀ n p, cacheGet c n = some p →
    ∃ items, NOTE_TO_STRING_get n = some items ∧ firstScaleMatch s items = none ∧
      (reachList items = [] → p = (999, 999))

/-- After a run, every processed pitch that resolves by proximity is cached. -/
def Ready (s : ScaleNotes) (c : Cache) (ns : List String) : Prop :=
  ∀ n ∈ ns, ∀ items, NOTE_TO_STRING_get n = some items →
    firstScaleMatch s items = none → reachList items ≠ [] → (cacheGet c n).isSome = true

/-- The triple a retained pitch is assigned, as a function of the scale walk
and a saturated cache: the first scale match if any, the sentinel if nothing is
reachable, the cached position otherwise. -/
def stableEmit (s : ScaleNotes) (c : Cache) (n : String) : Option Pos :=
  match NOTE_TO_STRING_get n with
  | none => none
  | some items =>
    match firstScaleMatch s items with
    | some p => some p
    | none => if reachList items = [] then some (999, 999) else cacheGet c n

theorem filterMap_congr_mem {α β : Type} (g h : α → Option β) :
    ∀ l : List α, (∀ x ∈ l, g x = h x) → l.filterMap g = l.filterMap h := by
  intro l
  induction l with
  | nil => intro _; rfl
  | cons a l ih =>
    intro hx
    rw [List.filterMap_cons, List.filterMap_cons, hx a (List.mem_cons_self a l),
      ih (fun x hmem => hx x (List.mem_cons_of_mem a hmem))]

/-- Run invariant of the per-note loop: starting from a cache that satisfies
CacheGood, the loop preserves CacheGood, never changes the value of an existing
entry, leaves every proximity-resolved processed pitch cached, and emits for
each retained note exactly the triple described by stableEmit at the final
cache. -/
theorem genLoop_spec (s : ScaleNotes) :
    ∀ (ns : List String) (c : Cache) (f : Nat), CacheGood s c →
      CacheGood s (genLoop s c f ns).2.1 ∧
      (∀ m q, cacheGet c m = some q → cacheGet (genLoop s c f ns).2.1 m = some q) ∧
      Ready s (genLoop s c f ns).2.1 ns ∧
      (genLoop s c f ns).1 =
        ns.filterMap (fun n => (stableEmit s (genLoop s c f ns).2.1 n).map
          (fun p => (n, p.2, p.1))) := by
  intro ns
  induction ns with
  | nil =>
    intro c f hc
    refine ⟨hc, fun m q hq => hq, ?_, rfl⟩
    intro n hn
    cases hn
  | cons n ns ih =>
    intro c f hc
    cases hget : NOTE_TO_STRING_get n with
    | none =>
      rw [genLoop_cons_skip s c f n ns c (nnf_absent c f n s hget)]
      obtain ⟨h1, h2, h3, h4⟩ := ih c f hc
      refine ⟨h1, h2, ?_, ?_⟩
      · intro m hm items hit hfsm hre
        rcases List.mem_cons.mp hm with rfl | hm2
        · rw [hget] at hit; cases hit
        · exact h3 m hm2 items hit hfsm hre
      · rw [h4]
        have hse : stableEmit s (genLoop s c f ns).2.1 n = none := by
          simp [stableEmit, hget]
        simp [List.filterMap_cons, hse]
    | some items =>
      cases hfsm : firstScaleMatch s items with
      | some p =>
        have hcn : cacheGet c n = none := by
          cases hq : cacheGet c n with
          | none => rfl
          | some q =>
            obtain ⟨its, hits, hfsm2, _⟩ := hc n q hq
            rw [hget] at hits
            injection hits with e
            rw [← e, hfsm] at hfsm2
            cases hfsm2
        rw [genLoop_cons_emit s c f n ns p c (nnf_scale_hit c f n s items p hget hfsm hcn)]
        obtain ⟨h1, h2, h3, h4⟩ := ih c p.1 hc
        refine ⟨h1, h2, ?_, ?_⟩
        · intro m hm its hit hfsm2 hre
          rcases List.mem_cons.mp hm with rfl | hm2
          · rw [hget] at hit; injection hit with e
            rw [← e, hfsm] at hfsm2
            cases hfsm2
          · exact h3 m hm2 its hit hfsm2 hre
        · rw [h4]
          have hse : stableEmit s (genLoop s c p.1 ns).2.1 n = some p := by
            simp [stableEmit, hget, hfsm]
          simp [List.filterMap_cons, hse]
      | none =>
        by_cases hre : reachList items = []
        · rw [genLoop_cons_emit s c f n ns (999, 999) ((n, (999, 999)) :: c)
            (nnf_sentinel c f n s items hget hre)]
          have hc1 : CacheGood s ((n, (999, 999)) :: c) := by
            intro m q hq
            rw [cacheGet_cons] at hq
            by_cases hnm : n = m
            · rw [if_pos hnm] at hq
              injection hq with e
              subst hnm
              exact ⟨items, hget, hfsm, fun _ => e.symm⟩
            · rw [if_neg hnm] at hq
              exact hc m q hq
          have hpres : ∀ m q, cacheGet c m = some q →
              cacheGet ((n, (999, 999)) :: c) m = some q := by
            intro m q hq
            rw [cacheGet_cons]
            by_cases hnm : n = m
            · subst hnm
              obtain ⟨its, hits, _, hemp⟩ := hc n q hq
              rw [hget] at hits
              injection hits with e
              have hq9 : q = (999, 999) := hemp (e ▸ hre)
              rw [if_pos rfl, hq9]
            · rw [if_neg hnm]
              exact hq
          obtain ⟨h1, h2, h3, h4⟩ := ih ((n, (999, 999)) :: c) 999 hc1
          refine ⟨h1, fun m q hq => h2 m q (hpres m q hq), ?_, ?_⟩
          · intro m hm its hit hfsm2 hre2
            rcases List.mem_cons.mp hm with rfl | hm2
            · rw [hget] at hit; injection hit with e
              rw [← e] at hre2
              exact absurd hre hre2
            · exact h3 m hm2 its hit hfsm2 hre2
          · rw [h4]
            have hse : stableEmit s (genLoop s ((n, (999, 999)) :: c) 999 ns).2.1 n
                = some (999, 999) := by
              simp [stableEmit, hget, hfsm, hre]
            simp [List.filterMap_cons, hse]
        · cases hcn : cacheGet c n with
          | some p =>
            rw [genLoop_cons_emit s c f n ns p c
              (nnf_cache_hit c f n s items p hget hfsm hre hcn)]
            obtain ⟨h1, h2, h3, h4⟩ := ih c p.1 hc
            have hfin : cacheGet (genLoop s c p.1 ns).2.1 n = some p := h2 n p hcn
            refine ⟨h1, h2, ?_, ?_⟩
            · intro m hm its hit hfsm2 hre2
              rcases List.mem_cons.mp hm with rfl | hm2
              · rw [hfin]; rfl
              · exact h3 m hm2 its hit hfsm2 hre2
            · rw [h4]
              have hse : stableEmit s (genLoop s c p.1 ns).2.1 n = some p := by
                simp [stableEmit, hget, hfsm, hre, hfin]
              simp [List.filterMap_cons, hse]
          | none =>
            rw [genLoop_cons_emit s c f n ns (minScan f items (999, 999, 999))
              ((n, minScan f items (999, 999, 999)) :: c)
              (nnf_prox c f n s items hget hfsm hcn)]
            have hc1 : CacheGood s ((n, minScan f items (999, 999, 999)) :: c) := by
              intro m q hq
              rw [cacheGet_cons] at hq
              by_cases hnm : n = m
              · rw [if_pos hnm] at hq
                subst hnm
                exact ⟨items, hget, hfsm, fun h => absurd h hre⟩
              · rw [if_neg hnm] at hq
                exact hc m q hq
            have hpres : ∀ m q, cacheGet c m = some q →
                cacheGet ((n, minScan f items (999, 999, 999)) :: c) m = some q := by
              intro m q hq
              rw [cacheGet_cons]
              by_cases hnm : n = m
              · subst hnm
                rw [hcn] at hq
                cases hq
              · rw [if_neg hnm]
                exact hq
            obtain ⟨h1, h2, h3, h4⟩ :=
              ih ((n, minScan f items (999, 999, 999)) :: c) (minScan f items (999, 999, 999)).1 hc1
            have hfin : cacheGet
                (genLoop s ((n, minScan f items (999, 999, 999)) :: c)
                  (minScan f items (999, 999, 999)).1 ns).2.1 n
                = some (minScan f items (999, 999, 999)) :=
              h2 n (minScan f items (999, 999, 999)) (by rw [cacheGet_cons, if_pos rfl])
            refine ⟨h1, fun m q hq => h2 m q (hpres m q hq), ?_, ?_⟩
            · intro m hm its hit hfsm2 hre2
              rcases List.mem_cons.mp hm with rfl | hm2
              · rw [hfin]; rfl
              · exact h3 m hm2 its hit hfsm2 hre2
            · rw [h4]
              have hse : stableEmit s
                  (genLoop s ((n, minScan f items (999, 999, 999)) :: c)
                    (minScan f items (999, 999, 999)).1 ns).2.1 n
                  = some (minScan f items (999, 999, 999)) := by
                simp [stableEmit, hget, hfsm, hre, hfin]
              simp [List.filterMap_cons, hse]

/-- Characterization of the minimum-diff accumulation: if no reachable diff is
within the incoming bound the accumulator survives; otherwise the result is
the LAST reachable position attaining the minimum diff (the `diff <= min_diff`
comparison lets a later tie replace an earlier one): the reachable list splits
as l1 ++ q :: l2 with the result equal to q, every earlier diff at least the
diff of q and every later diff strictly greater. -/
theorem minScan_char (fret : Nat) :
    ∀ (items : List (Nat × Option Nat)) (md mf ms : Nat),
      ((∀ r ∈ reachList items, ¬ diffN fret r.2 ≤ md) →
        minScan fret items (md, mf, ms) = (mf, ms)) ∧
      (∀ p ∈ reachList items, diffN fret p.2 ≤ md →
        ∃ l1 q l2, reachList items = l1 ++ q :: l2 ∧
          minScan fret items (md, mf, ms) = (q.2, q.1) ∧
          diffN fret q.2 ≤ md ∧
          (∀ r ∈ l1, diffN fret q.2 ≤ diffN fret r.2) ∧
          (∀ r ∈ l2, diffN fret q.2 < diffN fret r.2)) := by
  intro items
  induction items with
  | nil =>
    intro md mf ms
    refine ⟨fun _ => rfl, ?_⟩
    intro p hp
    simp [reachList] at hp
  | cons it rest ih =>
    intro md mf ms
    obtain ⟨st, fo⟩ := it
    cases fo with
    | none =>
      have e1 : minScan fret ((st, none) :: rest) (md, mf, ms)
          = minScan fret rest (md, mf, ms) := rfl
      constructor
      · intro hall
        rw [e1]
        exact (ih md mf ms).1 (by rwa [reachList_cons_none] at hall)
      · intro p hp hd
        rw [reachList_cons_none] at hp
        obtain ⟨l1, q, l2, hsplit, hres, hqmd, hl1, hl2⟩ := (ih md mf ms).2 p hp hd
        exact ⟨l1, q, l2, by rwa [reachList_cons_none], by rwa [e1], hqmd, hl1, hl2⟩
    | some f =>
      by_cases hd0 : diffN fret f ≤ md
      · have e2 : minScan fret ((st, some f) :: rest) (md, mf, ms)
            = minScan fret rest (diffN fret f, f, st) := by
          simp [minScan, hd0]
        constructor
        · intro hall
          exact absurd hd0 (hall (st, f)
            (by rw [reachList_cons_some]; exact List.mem_cons_self _ _))
        · intro p hp hd
          by_cases hex : ∃ r ∈ reachList rest, diffN fret r.2 ≤ diffN fret f
          · obtain ⟨r0, hr0, hr0d⟩ := hex
            obtain ⟨l1, q, l2, hsplit, hres, hqmd, hl1, hl2⟩ :=
              (ih (diffN fret f) f st).2 r0 hr0 hr0d
            refine ⟨(st, f) :: l1, q, l2, ?_, by rwa [e2], le_trans hqmd hd0, ?_, hl2⟩
            · rw [reachList_cons_some, hsplit]; rfl
            · intro r hr
              rcases List.mem_cons.mp hr with rfl | hr2
              · exact hqmd
              · exact hl1 r hr2
          · push_neg at hex
            have h1 := (ih (diffN fret f) f st).1
              (fun r hr => not_le.mpr (hex r hr))
            refine ⟨[], (st, f), reachList rest, ?_, ?_, hd0, ?_, ?_⟩
            · rw [reachList_cons_some]; rfl
            · rw [e2, h1]
            · intro r hr; cases hr
            · intro r hr; exact hex r hr
      · have e2 : minScan fret ((st, some f) :: rest) (md, mf, ms)
            = minScan fret rest (md, mf, ms) := by
          simp [minScan, hd0]
        constructor
        · intro hall
          rw [e2]
          exact (ih md mf ms).1 (fun r hr => hall r
            (by rw [reachList_cons_some]; exact List.mem_cons_of_mem _ hr))
        · intro p hp hd
          rw [reachList_cons_some] at hp
          rcases List.mem_cons.mp hp with rfl | hp2
          · exact absurd hd hd0
          · obtain ⟨l1, q, l2, hsplit, hres, hqmd, hl1, hl2⟩ := (ih md mf ms).2 p hp2 hd
            refine ⟨(st, f) :: l1, q, l2, ?_, by rwa [e2], hqmd, ?_, hl2⟩
            · rw [reachList_cons_some, hsplit]; rfl
            · intro r hr
              rcases List.mem_cons.mp hr with rfl | hr2
              · exact le_trans hqmd (le_of_lt (not_le.mp hd0))
              · exact hl1 r hr2

theorem reachList_eq_nil (items : List (Nat × Option Nat)) (hall : ∀ it ∈ items, it.2 = none) :
    reachList items = [] := by
  induction items with
  | nil => rfl
  | cons it rest ih =>
    obtain ⟨st, fo⟩ := it
    have h1 : fo = none := hall (st, fo) (List.mem_cons_self _ _)
    subst h1
    rw [reachList_cons_none]
    exact ih (fun x hx => hall x (List.mem_cons_of_mem _ hx))

/-! Claim theorems. -/

/-- Claim C1, counterexample: the key (C#2, major) has a scale whose first
pitch C#2 is present in the fretboard map with no reachable position on any
string, yet find_start returns normally with (0, 0, []) instead of failing
with any condition. -/
theorem find_start_csharp2_returns_normally :
    NOTE_TO_STRING_get (fix_note_name (scaleFirstPitch "C#2" "major")) =
      some [(1, none), (2, none), (3, none), (4, none), (5, none), (6, none)] ∧
    reachList [(1, none), (2, none), (3, none), (4, none), (5, none), (6, none)] = [] ∧
    find_start ("C#2", "major") = Except.ok (0, 0, ([] : ScaleNotes)) :=
  ⟨rfl, rfl, rfl⟩

/-- Claim C1 as amended: when the first pitch of the scale is entirely absent
from the fretboard map, find_start fails -- with an uncaught KeyError, not a
NoPlayablePosition condition -- while a first pitch that is present in the map
but reachable on no string makes find_start return (0, 0, []) normally. -/
theorem find_start_unplayable_first_pitch :
    (∀ (tonic mode : String) (steps : List Nat), SCALE_get mode = some steps →
        NOTE_TO_STRING_get (fix_note_name (scaleFirstPitch tonic mode)) = none →
        find_start (tonic, mode) = Except.error ()) ∧
    find_start ("C#2", "major") = Except.ok (0, 0, ([] : ScaleNotes)) := by
  constructor
  · intro tonic mode steps hs hn
    simp [find_start, hs, hn]
  · rfl

/-- Claim C1, witness: a tonic absent from the fretboard map makes find_start
fail. -/
theorem find_start_unplayable_first_pitch_witness :
    find_start ("H7", "major") = Except.error () :=
  find_start_unplayable_first_pitch.1 "H7" "major" [2, 2, 1, 2, 2, 2, 1] rfl rfl

/-- Claim C2: the renderer is NOT total -- on the single well-formed triple
(C4, string 2, fret 1) with staff_length 10, the break-point scan reads
`string[10]` on a padded track of length 3 and raises IndexError, where the
claim promises one six-line block followed by a blank line. -/
theorem render_single_note_width10_index_error :
    render [("C4", 2, 1)] 10 = Except.error () := rfl

/-- Claim C3: in a run of generate_notes from a fresh (empty) cache, any two
output triples bearing the same pitch are identical, so every occurrence of a
repeated pitch after the first carries the same (string, fret) as the first. -/
theorem generate_notes_cache_consistent (notes : List String) (key : String × String)
    (out : List (String × Nat × Nat)) (cfin : Cache)
    (h : generate_notes notes key [] = Except.ok (out, cfin)) :
    ∀ t1 ∈ out, ∀ t2 ∈ out, t1.1 = t2.1 → t1 = t2 := by
  cases hfs : find_start key with
  | error e => rw [generate_notes, hfs] at h; cases h
  | ok r =>
    rw [generate_notes, hfs] at h
    injection h with h2
    obtain ⟨hout, -⟩ := Prod.mk.inj h2
    have hcg : CacheGood r.2.2 ([] : Cache) := fun n p hp => by cases hp
    obtain ⟨-, -, -, E⟩ := genLoop_spec r.2.2 notes [] r.1 hcg
    intro t1 ht1 t2 ht2 heq
    rw [← hout, E] at ht1 ht2
    obtain ⟨n1, hn1, hg1⟩ := List.mem_filterMap.mp ht1
    obtain ⟨n2, hn2, hg2⟩ := List.mem_filterMap.mp ht2
    obtain ⟨p1, hp1, hfp1⟩ := Option.map_eq_some'.mp hg1
    obtain ⟨p2, hp2, hfp2⟩ := Option.map_eq_some'.mp hg2
    rw [← hfp1, ← hfp2] at heq ⊢
    simp only at heq
    rw [← heq] at hp2
    rw [hp1] at hp2
    injection hp2 with e
    rw [heq, e]

/-- Claim C3, witness: two consecutive E4 notes under the key (C4, major)
yield two identical triples. -/
theorem generate_notes_cache_consistent_witness :
    (("E4", 2, 5) : String × Nat × Nat) = ("E4", 2, 5) :=
  generate_notes_cache_consistent ["E4", "E4"] ("C4", "major")
    [("E4", 2, 5), ("E4", 2, 5)] [] rfl
    ("E4", 2, 5) (List.mem_cons_self _ _)
    ("E4", 2, 5) (List.mem_cons_self _ _) rfl

/-- Claim C4: in a run of generate_notes from a fresh cache, every output
triple whose pitch has some reachable position on the scale walk is assigned a
scale-walk member, namely the first reachable match in ascending string
order. -/
theorem generate_notes_scale_priority (notes : List String) (key : String × String)
    (f0 st0 : Nat) (s : ScaleNotes) (out : List (String × Nat × Nat)) (cfin : Cache)
    (hfs : find_start key = Except.ok (f0, st0, s))
    (h : generate_notes notes key [] = Except.ok (out, cfin)) :
    ∀ n st fr, (n, st, fr) ∈ out →
      ∀ items, NOTE_TO_STRING_get n = some items →
        (∃ p ∈ reachList items, ((p.2 : Int), p.1) ∈ s) →
        ((fr : Int), st) ∈ s ∧ firstScaleMatch s items = some (fr, st) := by
  rw [generate_notes, hfs] at h
  injection h with h2
  obtain ⟨hout, -⟩ := Prod.mk.inj h2
  have hcg : CacheGood s ([] : Cache) := fun n p hp => by cases hp
  obtain ⟨-, -, -, E⟩ := genLoop_spec s notes [] f0 hcg
  intro n st fr hmem items hget hex
  rw [← hout] at hmem
  rw [E] at hmem
  obtain ⟨n1, hn1, hg⟩ := List.mem_filterMap.mp hmem
  obtain ⟨p, hp, hfp⟩ := Option.map_eq_some'.mp hg
  obtain ⟨pa, pb⟩ := p
  simp only [Prod.mk.injEq] at hfp
  obtain ⟨e1, e2, e3⟩ := hfp
  subst e1 e2 e3
  obtain ⟨q, hq⟩ := firstScaleMatch_isSome s items hex
  simp only [stableEmit, hget, hq] at hp
  injection hp with e
  subst e
  exact ⟨(firstScaleMatch_mem s items (pa, pb) hq).1, hq⟩

/-- Claim C4, witness: the single note E4 under the key (C4, major) has a
reachable position (fret 5, string 2) on the scale walk and is assigned
exactly that position. -/
theorem generate_notes_scale_priority_witness :
    ((5 : Int), 2) ∈
      ([(5, 3), (7, 3), (9, 3), (5, 2), (7, 2), (9, 2), (7, 1), (8, 1), (10, 1)] : ScaleNotes) ∧
    firstScaleMatch
      [(5, 3), (7, 3), (9, 3), (5, 2), (7, 2), (9, 2), (7, 1), (8, 1), (10, 1)]
      [(1, none), (2, some 5), (3, some 9), (4, some 14), (5, some 19), (6, none)] =
      some (5, 2) :=
  generate_notes_scale_priority ["E4"] ("C4", "major") 5 3
    [(5, 3), (7, 3), (9, 3), (5, 2), (7, 2), (9, 2), (7, 1), (8, 1), (10, 1)]
    [("E4", 2, 5)] [] rfl rfl "E4" 2 5 (by decide)
    [(1, none), (2, some 5), (3, some 9), (4, some 14), (5, some 19), (6, none)] rfl (by decide)

/-- Claim C9: two successive calls of generate_notes with the same notes and
key -- the second starting from the cache the first call left on the Tabs
object -- produce identical triple sequences. -/
theorem generate_notes_idempotent (notes : List String) (key : String × String)
    (out1 out2 : List (String × Nat × Nat)) (c1 c2 : Cache)
    (h1 : generate_notes notes key [] = Except.ok (out1, c1))
    (h2 : generate_notes notes key c1 = Except.ok (out2, c2)) :
    out2 = out1 := by
  cases hfs : find_start key with
  | error e => rw [generate_notes, hfs] at h1; cases h1
  | ok r =>
    rw [generate_notes, hfs] at h1 h2
    injection h1 with h1p
    injection h2 with h2p
    obtain ⟨hout1, hc1⟩ := Prod.mk.inj h1p
    obtain ⟨hout2, -⟩ := Prod.mk.inj h2p
    have hcg0 : CacheGood r.2.2 ([] : Cache) := fun n p hp => by cases hp
    obtain ⟨G1, P1, R1, E1⟩ := genLoop_spec r.2.2 notes [] r.1 hcg0
    rw [hc1] at G1 R1 E1
    obtain ⟨G2, P2, R2, E2⟩ := genLoop_spec r.2.2 notes c1 r.1 G1
    have hagree : ∀ n ∈ notes,
        (fun n => (stableEmit r.2.2 (genLoop r.2.2 c1 r.1 notes).2.1 n).map
          (fun p => (n, p.2, p.1))) n =
        (fun n => (stableEmit r.2.2 c1 n).map (fun p => (n, p.2, p.1))) n := by
      intro n hn
      simp only
      have hse : stableEmit r.2.2 (genLoop r.2.2 c1 r.1 notes).2.1 n
          = stableEmit r.2.2 c1 n := by
        cases hget : NOTE_TO_STRING_get n with
        | none => simp [stableEmit, hget]
        | some items =>
          cases hfsm : firstScaleMatch r.2.2 items with
          | some p => simp [stableEmit, hget, hfsm]
          | none =>
            by_cases hre : reachList items = []
            · simp [stableEmit, hget, hfsm, hre]
            · have hrdy := R1 n hn items hget hfsm hre
              obtain ⟨q, hq⟩ := Option.isSome_iff_exists.mp hrdy
              simp [stableEmit, hget, hfsm, hre, hq, P2 n q hq]
      rw [hse]
    rw [← hout2, ← hout1, E2, E1]
    exact filterMap_congr_mem _ _ notes hagree

/-- Claim C9, witness: the run E4, F4 under (C4, major), repeated from the
cache of the first run, reproduces the same triples. -/
theorem generate_notes_idempotent_witness :
    ([("E4", 2, 5), ("F4", 2, 6)] : List (String × Nat × Nat)) =
      [("E4", 2, 5), ("F4", 2, 6)] :=
  generate_notes_idempotent ["E4", "F4"] ("C4", "major")
    [("E4", 2, 5), ("F4", 2, 6)] [("E4", 2, 5), ("F4", 2, 6)]
    [("F4", (6, 2))] [("F4", (6, 2))] rfl rfl

/-- Claim C5, counterexample: the single note E4 under (C4, major) is
assigned (fret 5, string 2) via the scale walk, yet after the run the cache is
still empty -- the chosen position of a scale-walk selection is NOT recorded
in the cache. -/
theorem scale_walk_choice_not_cached :
    generate_notes ["E4"] ("C4", "major") [] = Except.ok ([("E4", 2, 5)], []) ∧
    cacheGet [] "E4" = none :=
  ⟨rfl, rfl⟩

/-- Claim C5 as amended: for every retained note the running fret is set to
the emitted fret; a position chosen in the proximity branch is recorded in the
cache, but a position selected via the scale walk is returned before the cache
write and leaves the cache unchanged. -/
theorem assigner_cache_and_fret_update :
    (∀ (s : ScaleNotes) (c : Cache) (f : Nat) (n : String) (ns : List String)
        (p : Pos) (c2 : Cache),
        note_nearest_to_fret c f n s = (some p, c2) →
        genLoop s c f (n :: ns) =
          ((n, p.2, p.1) :: (genLoop s c2 p.1 ns).1, (genLoop s c2 p.1 ns).2)) ∧
    (∀ (s : ScaleNotes) (c : Cache) (f : Nat) (n : String)
        (items : List (Nat × Option Nat)),
        NOTE_TO_STRING_get n = some items → firstScaleMatch s items = none →
        cacheGet c n = none →
        note_nearest_to_fret c f n s =
          (some (minScan f items (999, 999, 999)),
            (n, minScan f items (999, 999, 999)) :: c)) ∧
    (∀ (s : ScaleNotes) (c : Cache) (f : Nat) (n : String)
        (items : List (Nat × Option Nat)) (p : Pos),
        NOTE_TO_STRING_get n = some items → firstScaleMatch s items = some p →
        cacheGet c n = none →
        note_nearest_to_fret c f n s = (some p, c)) :=
  ⟨fun s c f n ns p c2 h => genLoop_cons_emit s c f n ns p c2 h,
   fun s c f n items h1 h2 h3 => nnf_prox c f n s items h1 h2 h3,
   fun s c f n items p h1 h2 h3 => nnf_scale_hit c f n s items p h1 h2 h3⟩

/-- Claim C5, witness: a proximity choice for F4 is emitted, recorded and sets
the running fret, while a scale-walk choice for E4 leaves the cache empty. -/
theorem assigner_cache_and_fret_update_witness :
    genLoop [] [] 0 ["F4"] =
      (("F4", 1, 1) :: (genLoop [] [("F4", (1, 1))] 1 []).1,
        (genLoop [] [("F4", (1, 1))] 1 []).2) ∧
    note_nearest_to_fret [] 0 "F4" [] =
      (some (minScan 0
          [(1, some 1), (2, some 6), (3, some 10), (4, some 15), (5, some 20), (6, none)]
          (999, 999, 999)),
        ("F4", minScan 0
          [(1, some 1), (2, some 6), (3, some 10), (4, some 15), (5, some 20), (6, none)]
          (999, 999, 999)) :: []) ∧
    note_nearest_to_fret [] 0 "E4" [((5 : Int), 2)] = (some (5, 2), []) :=
  ⟨assigner_cache_and_fret_update.1 [] [] 0 "F4" [] (1, 1) [("F4", (1, 1))] rfl,
   assigner_cache_and_fret_update.2.1 [] [] 0 "F4"
     [(1, some 1), (2, some 6), (3, some 10), (4, some 15), (5, some 20), (6, none)]
     rfl rfl rfl,
   assigner_cache_and_fret_update.2.2 [((5 : Int), 2)] [] 0 "E4"
     [(1, none), (2, some 5), (3, some 9), (4, some 14), (5, some 19), (6, none)]
     (5, 2) rfl rfl rfl⟩

/-- Claim C6, counterexample: the mode mixolydian (and likewise jazz_minor) is
in the enumerated set but has no branch in _get_scale, so the generator builds
the MAJOR scale for it, whose interval-step table differs from the mixolydian
and jazz-minor rows of the SCALE table. -/
theorem get_scale_mixolydian_falls_back_to_major :
    get_scale_mode "mixolydian" = "major" ∧
    get_scale_mode "jazz_minor" = "major" ∧
    some (music21_steps (get_scale_mode "mixolydian")) ≠ SCALE_get "mixolydian" ∧
    some (music21_steps (get_scale_mode "jazz_minor")) ≠ SCALE_get "jazz_minor" := by
  decide

/-- Claim C6 as amended: major/ionian, dorian, phrygian, lydian, locrian and
minor/aeolian are dispatched to a scale whose interval-step table matches their
own SCALE row, while mixolydian and jazz_minor -- although members of the
enumerated set -- and every unknown mode name fall back to the major scale. -/
theorem get_scale_dispatch :
    (∀ m ∈ (["major", "ionian", "dorian", "phrygian", "lydian", "locrian",
        "minor", "aeolian"] : List String),
        some (music21_steps (get_scale_mode m)) = SCALE_get m) ∧
    get_scale_mode "mixolydian" = "major" ∧
    get_scale_mode "jazz_minor" = "major" ∧
    (∀ m : String,
        m ∉ (["major", "ionian", "dorian", "phrygian", "lydian", "locrian",
          "minor", "aeolian"] : List String) →
        get_scale_mode m = "major") := by
  refine ⟨by decide, by decide, by decide, ?_⟩
  intro m hm
  simp only [List.mem_cons, List.not_mem_nil, or_false, not_or] at hm
  obtain ⟨h1, h2, h3, h4, h5, h6, h7, h8⟩ := hm
  simp [get_scale_mode, h1, h2, h3, h4, h5, h6, h7, h8]

/-- Claim C6, witness: an arbitrary unknown mode name falls back to major. -/
theorem get_scale_dispatch_witness : get_scale_mode "blues" = "major" :=
  get_scale_dispatch.2.2.2 "blues" (by decide)

/-- Claim C7, counterexample: with currentFret 8, the pitch F4 has the two
reachable positions (fret 6, string 2) and (fret 10, string 3) at the equal
minimal distance 2, and the assigner returns (10, 3) -- the LAST such
position -- not the first (6, 2) the claim prescribes. -/
theorem proximity_tie_keeps_last_not_first :
    (note_nearest_to_fret [] 8 "F4" []).1 = some (10, 3) ∧
    (2, 6) ∈ reachList
      [(1, some 1), (2, some 6), (3, some 10), (4, some 15), (5, some 20), (6, none)] ∧
    (3, 10) ∈ reachList
      [(1, some 1), (2, some 6), (3, some 10), (4, some 15), (5, some 20), (6, none)] ∧
    diffN 8 6 = 2 ∧ diffN 8 10 = 2 ∧
    (∀ r ∈ reachList
        [(1, some 1), (2, some 6), (3, some 10), (4, some 15), (5, some 20), (6, none)],
      2 ≤ diffN 8 r.2) ∧
    (note_nearest_to_fret [] 8 "F4" []).1 ≠ some (6, 2) := by
  decide

/-- Claim C7 as amended: in the proximity branch (no scale-walk match, no
cache entry) the assigner returns a reachable position of minimal
|fret - currentFret| and, among equal minimal distances, the LAST one
encountered in ascending string order: the reachable list splits around the
chosen position with all earlier diffs at least the chosen diff and all later
diffs strictly greater. -/
theorem proximity_tie_breaking_last (c : Cache) (fret : Nat) (n : String) (s : ScaleNotes)
    (items : List (Nat × Option Nat)) (p : Nat × Nat)
    (hget : NOTE_TO_STRING_get n = some items)
    (hfsm : firstScaleMatch s items = none)
    (hc : cacheGet c n = none)
    (hp : p ∈ reachList items) (hd : diffN fret p.2 ≤ 999) :
    ∃ l1 q l2, reachList items = l1 ++ q :: l2 ∧
      (note_nearest_to_fret c fret n s).1 = some (q.2, q.1) ∧
      (∀ r ∈ l1, diffN fret q.2 ≤ diffN fret r.2) ∧
      (∀ r ∈ l2, diffN fret q.2 < diffN fret r.2) := by
  obtain ⟨l1, q, l2, hsplit, hres, -, hl1, hl2⟩ :=
    (minScan_char fret items 999 999 999).2 p hp hd
  refine ⟨l1, q, l2, hsplit, ?_, hl1, hl2⟩
  rw [nnf_prox c fret n s items hget hfsm hc]
  exact congrArg some hres

/-- Claim C7, witness: the F4 tie at currentFret 8 instantiates the amended
tie-breaking statement. -/
theorem proximity_tie_breaking_last_witness :
    ∃ l1 q l2,
      reachList
        [(1, some 1), (2, some 6), (3, some 10), (4, some 15), (5, some 20), (6, none)]
        = l1 ++ q :: l2 ∧
      (note_nearest_to_fret [] 8 "F4" []).1 = some (q.2, q.1) ∧
      (∀ r ∈ l1, diffN 8 q.2 ≤ diffN 8 r.2) ∧
      (∀ r ∈ l2, diffN 8 q.2 < diffN 8 r.2) :=
  proximity_tie_breaking_last [] 8 "F4" []
    [(1, some 1), (2, some 6), (3, some 10), (4, some 15), (5, some 20), (6, none)]
    (1, 1) rfl rfl rfl (by decide) (by decide)

/-- Claim C8, counterexample: the enharmonic pair F#4 / Gb4 does NOT map to
the same position set -- F#4 is present in the fretboard map while the
spelling Gb4 is entirely absent. -/
theorem enharmonic_gb4_missing :
    NOTE_TO_STRING_get "Gb4" = none ∧ (NOTE_TO_STRING_get "F#4").isSome = true := by
  decide

/-- Claim C8 as amended: every enharmonic sharp/flat pair with BOTH spellings
present in the map carries identical position rows, but several flat
spellings (Gb4, Db4, Db5, Gb5, Gb3, Db3, Gb2 among them) are absent from the
map altogether even where the sharp spelling is performable. -/
theorem enharmonic_pairs_present_agree :
    NOTE_TO_STRING_get "G#4" = NOTE_TO_STRING_get "Ab4" ∧
    NOTE_TO_STRING_get "A#4" = NOTE_TO_STRING_get "Bb4" ∧
    NOTE_TO_STRING_get "D#4" = NOTE_TO_STRING_get "Eb4" ∧
    NOTE_TO_STRING_get "D#5" = NOTE_TO_STRING_get "Eb5" ∧
    NOTE_TO_STRING_get "G#5" = NOTE_TO_STRING_get "Ab5" ∧
    NOTE_TO_STRING_get "A#5" = NOTE_TO_STRING_get "Bb5" ∧
    NOTE_TO_STRING_get "G#3" = NOTE_TO_STRING_get "Ab3" ∧
    NOTE_TO_STRING_get "A#3" = NOTE_TO_STRING_get "Bb3" ∧
    NOTE_TO_STRING_get "D#3" = NOTE_TO_STRING_get "Eb3" ∧
    NOTE_TO_STRING_get "A#2" = NOTE_TO_STRING_get "Bb2" ∧
    NOTE_TO_STRING_get "G#2" = NOTE_TO_STRING_get "Ab2" ∧
    NOTE_TO_STRING_get "C#2" = NOTE_TO_STRING_get "Db2" ∧
    NOTE_TO_STRING_get "D#2" = NOTE_TO_STRING_get "Eb2" ∧
    NOTE_TO_STRING_get "F#1" = NOTE_TO_STRING_get "Gb1" ∧
    NOTE_TO_STRING_get "G#1" = NOTE_TO_STRING_get "Ab1" ∧
    NOTE_TO_STRING_get "A#1" = NOTE_TO_STRING_get "Bb1" ∧
    NOTE_TO_STRING_get "Gb4" = none ∧
    NOTE_TO_STRING_get "Db4" = none ∧
    NOTE_TO_STRING_get "Db5" = none ∧
    NOTE_TO_STRING_get "Gb5" = none ∧
    NOTE_TO_STRING_get "Gb3" = none ∧
    NOTE_TO_STRING_get "Db3" = none ∧
    NOTE_TO_STRING_get "Gb2" = none ∧
    (NOTE_TO_STRING_get "F#2").isSome = true :=
  ⟨rfl, rfl, rfl, rfl, rfl, rfl, rfl, rfl, rfl, rfl, rfl, rfl,
   rfl, rfl, rfl, rfl, rfl, rfl, rfl, rfl, rfl, rfl, rfl, rfl⟩

/-- Claim C10: a pitch present in the fretboard map but reachable on no string
(all six fret entries empty, like C#2) is neither dropped nor an error: the
assigner returns the never-replaced sentinel (999, 999), records it in the
cache, and generate_notes emits the triple (pitch, 999, 999) with the running
fret set to 999 for the rest of the run. -/
theorem unreachable_pitch_sentinel (n : String) (items : List (Nat × Option Nat))
    (hget : NOTE_TO_STRING_get n = some items) (hall : ∀ it ∈ items, it.2 = none) :
    ∀ (s : ScaleNotes) (c : Cache) (f : Nat) (ns : List String),
      note_nearest_to_fret c f n s = (some (999, 999), (n, (999, 999)) :: c) ∧
      genLoop s c f (n :: ns) =
        ((n, 999, 999) :: (genLoop s ((n, (999, 999)) :: c) 999 ns).1,
          (genLoop s ((n, (999, 999)) :: c) 999 ns).2) := by
  have hre : reachList items = [] := reachList_eq_nil items hall
  intro s c f ns
  have hnnf := nnf_sentinel c f n s items hget hre
  exact ⟨hnnf, genLoop_cons_emit s c f n ns (999, 999) ((n, (999, 999)) :: c) hnnf⟩

/-- Claim C10, witness: the all-empty pitch C#2 is emitted as
(C#2, 999, 999), cached as (999, 999), and sets the running fret to 999. -/
theorem unreachable_pitch_sentinel_witness :
    note_nearest_to_fret [] 0 "C#2" [] = (some (999, 999), [("C#2", (999, 999))]) ∧
    genLoop [] [] 0 ["C#2"] =
      (("C#2", 999, 999) :: (genLoop [] [("C#2", (999, 999))] 999 []).1,
        (genLoop [] [("C#2", (999, 999))] 999 []).2) :=
  unreachable_pitch_sentinel "C#2"
    [(1, none), (2, none), (3, none), (4, none), (5, none), (6, none)]
    rfl (by decide) [] [] 0 []

end MidiToTab
